import Mathlib

/-!
Verification development for the swing-trading frontend (Next.js client of a
strategy-execution backend).  The TypeScript client code is shallowly embedded:
each handler or api function becomes a pure Lean function from its inputs (and
the relevant server responses, passed as explicit parameters) to the list of
observable effects it performs (HTTP requests, user messages, refreshes), and
the claims about the code are proved as theorems over these functions.
-/

namespace SwingTrading

/-- JSON values, used to embed the request bodies the client serializes. -/
inductive Json where
  | str (s : String)
  | num (n : Int)
  | boolean (b : Bool)
  | arr (xs : List Json)
  | obj (fields : List (String × Json))
  | null

/-- One HTTP request as assembled by a `fetch` call: method, url, headers,
optional JSON body, and whether an `AbortSignal` is attached to the request
(`hasAbortSignal = true` exactly when the code passes `signal:` in the
`fetch` options). -/
structure HttpRequest where
  method : String
  url : String
  headers : List (String × String)
  body : Option Json
  hasAbortSignal : Bool

/-- Embeds `const API_BASE_URL = 'http://localhost:8000'` (same constant in
both copies of the api module). -/
def API_BASE_URL : String := "http://localhost:8000"

namespace AppApi

/-- Embeds `executeMultipleStrategies` from `app/lib/api.ts` (lines 105-116):
POST to `/api/strategies/execute-multiple` with JSON body
`watchlist_id, strategy_ids, save_results: true`; no abort signal is passed
in the fetch options. -/
def executeMultipleStrategies (watchlistId : Int) (strategyIds : List Int) : HttpRequest :=
  { method := "POST"
    url := API_BASE_URL ++ "/api/strategies/execute-multiple"
    headers := [("Content-Type", "application/json")]
    body := some (Json.obj
      [("watchlist_id", Json.num watchlistId),
       ("strategy_ids", Json.arr (strategyIds.map Json.num)),
       ("save_results", Json.boolean true)])
    hasAbortSignal := false }

end AppApi

namespace RootApi

/-- Embeds `executeMultipleStrategies` from the second copy `lib/api.ts`
(lines 80-91); the code is identical to the `app/lib/api.ts` copy. -/
def executeMultipleStrategies (watchlistId : Int) (strategyIds : List Int) : HttpRequest :=
  { method := "POST"
    url := API_BASE_URL ++ "/api/strategies/execute-multiple"
    headers := [("Content-Type", "application/json")]
    body := some (Json.obj
      [("watchlist_id", Json.num watchlistId),
       ("strategy_ids", Json.arr (strategyIds.map Json.num)),
       ("save_results", Json.boolean true)])
    hasAbortSignal := false }

end RootApi

/-- An HTTP response as observed by the client: the `ok` flag and an optional
body (`none` models a 204 No Content reply, which has no body to parse). -/
structure HttpResponse where
  ok : Bool
  body : Option Json

namespace AppApi

/-- Embeds `deleteStock` from `app/lib/api.ts` (lines 27-38): throw
"Failed to delete stock" when the response is not ok, otherwise return
without touching the response body. -/
def deleteStock (resp : HttpResponse) : Except String Unit :=
  if resp.ok then Except.ok () else Except.error "Failed to delete stock"

/-- Embeds `deleteWatchlist` from `app/lib/api.ts` (lines 64-75). -/
def deleteWatchlist (resp : HttpResponse) : Except String Unit :=
  if resp.ok then Except.ok () else Except.error "Failed to delete watchlist"

/-- Embeds `removeStockFromWatchlist` from `app/lib/api.ts` (lines 86-97). -/
def removeStockFromWatchlist (resp : HttpResponse) : Except String Unit :=
  if resp.ok then Except.ok () else Except.error "Failed to remove stock from watchlist"

end AppApi

/-- One row of the execution results table: a stock symbol together with its
cross-strategy `total_matches` count. -/
structure ResultRow where
  symbol : String
  total_matches : Nat
  deriving DecidableEq, Repr

/-- The fields of the execution-results object that `getSummary` reads.  Both
are optional: the code guards them with `|| 0` and `?.` respectively. -/
structure SummaryInput where
  total_stocks : Option Nat
  results : Option (List ResultRow)
  deriving DecidableEq, Repr

/-- The match-rate value computed by `getSummary`: either the percentage
`(stocksWithMatches / totalStocks) * 100` formatted with `toFixed(1)`
(represented symbolically by its numerator and denominator, so that a division
is performed exactly when this constructor appears), or the literal string
"0.0" taken without any division. -/
inductive MatchRate where
  | percentOf (stocksWithMatches totalStocks : Nat)
  | literalZero
  deriving DecidableEq, Repr

/-- The record `{ totalStocks, stocksWithMatches, matchRate }` returned by
`getSummary`. -/
structure Summary where
  totalStocks : Nat
  stocksWithMatches : Nat
  matchRate : MatchRate
  deriving DecidableEq, Repr

/-- Embeds `getSummary` from `Strategies.tsx` (lines 429-437):
`null` when there are no results; otherwise `total_stocks || 0`,
`results.results?.filter(r => r.total_matches > 0).length || 0`, and the
guarded match rate `totalStocks > 0 ? ... : "0.0"`. -/
def getSummary : Option SummaryInput → Option Summary
  | none => none
  | some res =>
    let totalStocks := res.total_stocks.getD 0
    let stocksWithMatches :=
      (res.results.map (fun rows => (rows.filter (fun r => 0 < r.total_matches)).length)).getD 0
    let matchRate :=
      if 0 < totalStocks then MatchRate.percentOf stocksWithMatches totalStocks
      else MatchRate.literalZero
    some { totalStocks := totalStocks, stocksWithMatches := stocksWithMatches,
           matchRate := matchRate }

/-- A stock record as returned by `GET /api/stocks/`: the fields the component
reads are `symbol` and `id`. -/
structure Stock where
  symbol : String
  id : Nat
  deriving DecidableEq, Repr

/-- Observable effects of the watchlist-creation flow in `Strategies.tsx`:
HTTP requests issued and user-visible messages. -/
inductive Eff where
  | ensureCall (symbols : List String)
  | fetchStocks
  | postStock (symbol : String)
  | stocksAddedMsg (count : Nat)
  | warnNotFound (symbols : List String)
  | errorNoValidStocks
  | createRequest (name descr : String) (stock_ids : List Nat)
  | createSuccessMsg
  | errorMsg (msg : String)
  | refresh
  deriving DecidableEq, Repr

/-- The symbols of `symbols` that have no stock with the same `symbol` field in
`stocks`; embeds `symbols.filter(symbol => !allStocks.some(s => s.symbol ===
symbol))` from `ensureStocksExist`. -/
def missingFrom (stocks : List Stock) (symbols : List String) : List String :=
  symbols.filter (fun sym => !(stocks.any (fun s => s.symbol == sym)))

/-- Embeds `ensureStocksExist` from `Strategies.tsx` (lines 256-307).
Parameters model the collaborating server: `fetchOk` is whether the
`GET /api/stocks/` fetch succeeds, `server` is the stock list it returns,
`accept sym` is whether the server accepts the `POST /api/stocks/` creating
`sym` (a rejected POST is only logged; the loop continues), and `freshId sym`
is the id the server assigns.  Returns the server's stock list after the
call, the list of effects performed, and the function's boolean result
(`false` exactly when the initial fetch failed and the catch block ran). -/
def ensureStocksExist (fetchOk : Bool) (accept : String → Bool) (freshId : String → Nat)
    (server : List Stock) (symbols : List String) : List Stock × List Eff × Bool :=
  if fetchOk then
    let missing := missingFrom server symbols
    if missing.isEmpty then
      (server, [Eff.fetchStocks], true)
    else
      (server ++ (missing.filter accept).map (fun sym => Stock.mk sym (freshId sym)),
       Eff.fetchStocks :: (missing.map Eff.postStock ++ [Eff.stocksAddedMsg missing.length]),
       true)
  else
    (server, [Eff.fetchStocks], false)

/-- The stock ids collected by the symbol-to-id loop of
`handleSubmitWatchlist`: for each selected symbol, the id of the first stock
in `stocks` with that symbol, skipping symbols with no matching stock. -/
def resolveIds (stocks : List Stock) (symbols : List String) : List Nat :=
  symbols.filterMap (fun sym => (stocks.find? (fun s => s.symbol == sym)).map Stock.id)

/-- The `notFoundStocks` list of `handleSubmitWatchlist`: selected symbols
with no matching stock in `stocks`. -/
def notFoundFrom (stocks : List Stock) (symbols : List String) : List String :=
  symbols.filter (fun sym => (stocks.find? (fun s => s.symbol == sym)).isNone)

/-- Embeds `handleSubmitWatchlist` from `Strategies.tsx` (lines 310-402) as
the list of effects it performs.  The server collaborator is modelled by the
same parameters as `ensureStocksExist` plus `fetchOk2` (the second
`GET /api/stocks/`, whose reply is the post-`ensureStocksExist` stock list),
and `createOk`/`createDetail` (outcome and error detail of the
`POST /api/watchlists/` request).  Pure UI state changes (loading flag,
modal close, form reset, page reload) are not part of the effect trace. -/
def handleSubmitWatchlist (fetchOk1 : Bool) (accept : String → Bool) (freshId : String → Nat)
    (server : List Stock) (fetchOk2 : Bool) (createOk : Bool) (createDetail : Option String)
    (name descr : String) (selected : List String) : List Eff :=
  let ens := ensureStocksExist fetchOk1 accept freshId server selected
  let base := Eff.ensureCall selected :: ens.2.1
  if fetchOk2 then
    let allStocks := ens.1
    let stockIds := resolveIds allStocks selected
    let notFound := notFoundFrom allStocks selected
    let warnPart := if notFound.isEmpty then [] else [Eff.warnNotFound notFound]
    if stockIds.isEmpty then
      base ++ [Eff.fetchStocks] ++ warnPart ++ [Eff.errorNoValidStocks]
    else
      base ++ [Eff.fetchStocks] ++ warnPart ++
        (if createOk then
          [Eff.createRequest name descr stockIds, Eff.createSuccessMsg, Eff.refresh]
        else
          [Eff.createRequest name descr stockIds,
           Eff.errorMsg (createDetail.getD "Failed to create watchlist")])
  else
    base ++ [Eff.fetchStocks, Eff.errorMsg "Failed to fetch stocks"]

/-- The `postStock` symbols of an effect trace, in order. -/
def postsOf (trace : List Eff) : List String :=
  trace.filterMap (fun e => match e with | Eff.postStock sym => some sym | _ => none)

/-- One strategy's verdict on one symbol, as read by the detailed-results
table: `matched`, `score`, optional `confidence`, optional `reason`. -/
structure StrategyOutcome where
  matched : Bool
  score : Option ℚ
  confidence : Option ℚ
  reason : Option String
  deriving DecidableEq, Repr

/-- One row of the detailed results table.  `strategies` is the per-strategy
outcome map of the row (`record.strategies`), which may itself be absent. -/
structure DetailRow where
  symbol : String
  total_matches : Nat
  strategies : Option (List (String × StrategyOutcome))
  deriving DecidableEq, Repr

/-- Embeds `record.strategies?.[strategyId]`. -/
def lookupStrategy (row : DetailRow) (strategyId : String) : Option StrategyOutcome :=
  match row.strategies with
  | none => none
  | some entries => (entries.find? (fun p => p.1 == strategyId)).map Prod.snd

/-- What a strategy column cell displays for one row: the "No Data" tag, the
"No Match" tag, or a MATCH block with the score shown, the confidence shown
(if any), and the reason text shown (if any). -/
inductive Cell where
  | noData
  | noMatch
  | matchBlock (scoreShown : Option ℚ) (confidenceShown : Option ℚ) (reasonShown : Option String)
  deriving DecidableEq, Repr

/-- JavaScript truthiness guard `strategyResult.confidence && ...`: the
confidence is displayed only when present and nonzero (the number 0 is falsy
in JavaScript). -/
def jsShownConfidence : Option ℚ → Option ℚ
  | some c => if c = 0 then none else some c
  | none => none

/-- JavaScript truthiness guard `strategyResult.reason && ...` followed by
`reason.substring(0, 80)` plus an ellipsis when longer than 80 characters
(the empty string is falsy in JavaScript). -/
def jsShownReason : Option String → Option String
  | some r =>
    if r = "" then none
    else some (r.take 80 ++ (if 80 < r.length then "..." else ""))
  | none => none

/-- Embeds the strategy column `render` from `Strategies.tsx` (lines
745-787): missing entry renders "No Data"; `matched` renders the MATCH block
with score, truthiness-guarded confidence and truthiness-guarded truncated
reason; otherwise "No Match". -/
def renderStrategyCell (row : DetailRow) (strategyId : String) : Cell :=
  match lookupStrategy row strategyId with
  | none => Cell.noData
  | some res =>
    if res.matched then
      Cell.matchBlock res.score (jsShownConfidence res.confidence) (jsShownReason res.reason)
    else
      Cell.noMatch

/-- The cell the claim describes, following the spec words: identical to the
code's render except that the confidence is displayed whenever it is present
(not merely when truthy). -/
def renderStrategyCellSpec (row : DetailRow) (strategyId : String) : Cell :=
  match lookupStrategy row strategyId with
  | none => Cell.noData
  | some res =>
    if res.matched then
      Cell.matchBlock res.score res.confidence (jsShownReason res.reason)
    else
      Cell.noMatch

/-- The upload response as observed by `handleUpload`: the `ok` flag, the
`detail` field of an error body, and the `message` field of a success body. -/
structure UploadResponse where
  ok : Bool
  detail : Option String
  message : Option String
  deriving DecidableEq, Repr

/-- Observable effects of `handleUpload`. -/
inductive UploadEff where
  | postUpload
  | successMsg (msg : Option String)
  | closeModal
  | refresh
  | errorMsg (msg : String)
  deriving DecidableEq, Repr

/-- Embeds `handleUpload` from `Strategies.tsx` (lines 64-91): POST the file;
when the response is not ok, throw `error.detail || 'Upload failed'`, which
the catch block surfaces to the user, with no refresh; when it is ok, show
the success message, close the modal and call `onRefresh`. -/
def handleUpload (resp : UploadResponse) : List UploadEff :=
  if resp.ok then
    [UploadEff.postUpload, UploadEff.successMsg resp.message,
     UploadEff.closeModal, UploadEff.refresh]
  else
    [UploadEff.postUpload, UploadEff.errorMsg (resp.detail.getD "Upload failed")]

/-- The request `handleScan` issues: `fetch('/api/strategies/scan',
{ method: 'POST', signal: controller.signal })` — an abort signal is
attached. -/
def scanRequest : HttpRequest :=
  { method := "POST"
    url := API_BASE_URL ++ "/api/strategies/scan"
    headers := []
    body := none
    hasAbortSignal := true }

/-- Outcome of the scan fetch as observed by `handleScan`: aborted via the
signal, an http error (with the resolved error message, `errorData.detail ||
errorData.message || 'Scan failed'`), or a parsed scan report. -/
inductive ScanOutcome where
  | aborted
  | httpError (msg : String)
  | parsed (scanned : Nat) (added updated : List String)
  deriving DecidableEq, Repr

/-- Observable effects of `handleScan`. -/
inductive ScanEff where
  | abortPrevious
  | request (r : HttpRequest)
  | successMsg (scanned addedCount updatedCount : Nat)
  | errorMsg (msg : String)
  | refresh

/-- Embeds `handleScan` from `Strategies.tsx` (lines 94-160): a no-op when a
scan is already in progress; otherwise abort any previous controller, issue
the scan request with a fresh controller's signal, and on completion either
return silently (`AbortError`), surface the error message, or show the scan
summary and refresh. -/
def handleScan (scanning : Bool) (hasPrevController : Bool) (outcome : ScanOutcome) :
    List ScanEff :=
  if scanning then []
  else
    (if hasPrevController then [ScanEff.abortPrevious] else []) ++
    [ScanEff.request scanRequest] ++
    (match outcome with
     | ScanOutcome.aborted => []
     | ScanOutcome.httpError msg => [ScanEff.errorMsg msg]
     | ScanOutcome.parsed n a u => [ScanEff.successMsg n a.length u.length, ScanEff.refresh])

/-- The execution-results object held in the component's `results` state, as
read by the selection logic (`results.results` rows). -/
structure ResultsData where
  results : List ResultRow
  deriving DecidableEq, Repr

/-- `results.results.filter(r => r.total_matches > 0).map(r => r.symbol)` —
the matched-stock symbol list used by `selectAllMatched` and by the
auto-select path of `handleCreateWatchlistFromResults`. -/
def matchedSymbols (rd : ResultsData) : List String :=
  (rd.results.filter (fun r => 0 < r.total_matches)).map ResultRow.symbol

/-- The `disabled` prop of the per-row selection checkbox:
`record.total_matches === 0`. -/
def checkboxDisabled (r : ResultRow) : Bool :=
  r.total_matches == 0

/-- Embeds `toggleStockSelection`: remove the symbol when selected, append it
otherwise. -/
def toggleSelection (selected : List String) (sym : String) : List String :=
  if sym ∈ selected then selected.filter (fun s => s ≠ sym) else selected ++ [sym]

/-- The component state relevant to stock selection: the current execution
results (if any) and the `selectedStocks` list. -/
structure CompState where
  results : Option ResultsData
  selected : List String
  deriving DecidableEq, Repr

/-- The user-reachable transitions of the Strategies component that touch
`results` or `selectedStocks`.  `execute` collapses `handleExecute` (which
clears both states on entry and stores the outcome) into one transition;
`toggleChecked` is the per-row checkbox, which the UI only enables when
`checkboxDisabled` is false; `toggleMatchedCard` is the matched-stocks card,
rendered only for rows with `total_matches > 0`; `toggleTagClose` is the
closable tag in the create-watchlist modal, rendered only for selected
symbols; `clearSel` covers `clearSelection` and the selection reset after a
successful `handleSubmitWatchlist`. -/
inductive Step : CompState → CompState → Prop where
  | execute (s : CompState) (rd : Option ResultsData) :
      Step s ⟨rd, []⟩
  | toggleChecked (s : CompState) (rd : ResultsData) (sym : String)
      (hres : s.results = some rd)
      (hrow : ∃ r ∈ rd.results, r.symbol = sym ∧ checkboxDisabled r = false) :
      Step s ⟨s.results, toggleSelection s.selected sym⟩
  | toggleMatchedCard (s : CompState) (rd : ResultsData) (sym : String)
      (hres : s.results = some rd)
      (hrow : ∃ r ∈ rd.results, r.symbol = sym ∧ 0 < r.total_matches) :
      Step s ⟨s.results, toggleSelection s.selected sym⟩
  | toggleTagClose (s : CompState) (sym : String) (hsel : sym ∈ s.selected) :
      Step s ⟨s.results, toggleSelection s.selected sym⟩
  | selectAll (s : CompState) (rd : ResultsData) (hres : s.results = some rd) :
      Step s ⟨s.results, matchedSymbols rd⟩
  | createAutoSelect (s : CompState) (rd : ResultsData)
      (hres : s.results = some rd) (hempty : s.selected = [])
      (hne : matchedSymbols rd ≠ []) :
      Step s ⟨s.results, matchedSymbols rd⟩
  | clearSel (s : CompState) :
      Step s ⟨s.results, []⟩

/-- States reachable from the component's initial state
(`results = null`, `selectedStocks = []`). -/
inductive Reachable : CompState → Prop where
  | init : Reachable ⟨none, []⟩
  | step (s t : CompState) : Reachable s → Step s t → Reachable t

/-- The selection invariant: every selected symbol has a result row with a
positive `total_matches` count. -/
def SelInv (s : CompState) : Prop :=
  ∀ sym ∈ s.selected, ∃ rd, s.results = some rd ∧
    ∃ r ∈ rd.results, r.symbol = sym ∧ 0 < r.total_matches

/-- Modelled from the spec: the metadata of one discovered strategy (§3
`StrategyMetadata`), for the backend Strategy Registry whose source is not
among the scanned files.  `scriptId` is the stable identifier derived from
the source name; the remaining descriptive fields are collapsed into
`displayName`/`descr` (the volatile `lastScanned` timestamp is not part of
the compared metadata). -/
structure StratMeta where
  scriptId : String
  displayName : String
  descr : String
  deriving DecidableEq, Repr

/-- Look up a registry entry by `scriptId`. -/
def lookupId (reg : List StratMeta) (i : String) : Option StratMeta :=
  reg.find? (fun m => m.scriptId == i)

/-- Replace the entry with `m.scriptId` by `m`, in place. -/
def upsertMeta (reg : List StratMeta) (m : StratMeta) : List StratMeta :=
  reg.map (fun old => if old.scriptId == m.scriptId then m else old)

/-- The `ScanReport` of §4.2: counts of scanned candidates, added and updated
script ids, and failed candidates' error reasons. -/
structure ScanReport where
  scanned : Nat
  added : List String
  updated : List String
  failed : List String
  deriving DecidableEq, Repr

/-- Modelled from the spec: `scan` of the backend Strategy Registry (§4.2),
whose source is not among the scanned files.  Candidates at the source
location are given as load results (`Except.error` for a candidate failing
the Strategy Contract, `Except.ok` for extracted metadata).  Each metadata is
upserted keyed by `scriptId`: added when new, updated in place when known —
recording it in `updated` only when the stored metadata actually differs, as
required by the discovery policy of §4.2 («no spurious updates», property
P3); a failed candidate is recorded and never aborts the scan. -/
def scanRegistry : List StratMeta → List (Except String StratMeta) →
    List StratMeta × ScanReport
  | reg, [] => (reg, ⟨0, [], [], []⟩)
  | reg, Except.error e :: cs =>
    let rest := scanRegistry reg cs
    (rest.1, ⟨rest.2.scanned + 1, rest.2.added, rest.2.updated, e :: rest.2.failed⟩)
  | reg, Except.ok m :: cs =>
    match lookupId reg m.scriptId with
    | none =>
      let rest := scanRegistry (reg ++ [m]) cs
      (rest.1, ⟨rest.2.scanned + 1, m.scriptId :: rest.2.added, rest.2.updated, rest.2.failed⟩)
    | some old =>
      if old = m then
        let rest := scanRegistry reg cs
        (rest.1, ⟨rest.2.scanned + 1, rest.2.added, rest.2.updated, rest.2.failed⟩)
      else
        let rest := scanRegistry (upsertMeta reg m) cs
        (rest.1, ⟨rest.2.scanned + 1, rest.2.added, m.scriptId :: rest.2.updated, rest.2.failed⟩)

/-- The script ids of the candidates that load successfully. -/
def okIds (cs : List (Except String StratMeta)) : List String :=
  cs.filterMap (fun c => match c with | Except.ok m => some m.scriptId | _ => none)

/-- Whether a fallible api call returned normally rather than throwing. -/
def succeeds (r : Except String Unit) : Bool :=
  match r with
  | Except.ok _ => true
  | Except.error _ => false

/-- C3: every execute request the frontend issues (`executeMultipleStrategies`
in both copies of the api module) is a POST to
`/api/strategies/execute-multiple` whose JSON body contains exactly the
fields `watchlist_id`, `strategy_ids` and `save_results`, with `save_results`
always `true`; the two copies build identical requests. -/
theorem execute_request_shape (watchlistId : Int) (strategyIds : List Int) :
    (AppApi.executeMultipleStrategies watchlistId strategyIds).method = "POST"
  ∧ (AppApi.executeMultipleStrategies watchlistId strategyIds).url =
      API_BASE_URL ++ "/api/strategies/execute-multiple"
  ∧ (AppApi.executeMultipleStrategies watchlistId strategyIds).body =
      some (Json.obj
        [("watchlist_id", Json.num watchlistId),
         ("strategy_ids", Json.arr (strategyIds.map Json.num)),
         ("save_results", Json.boolean true)])
  ∧ RootApi.executeMultipleStrategies watchlistId strategyIds =
      AppApi.executeMultipleStrategies watchlistId strategyIds :=
  ⟨rfl, rfl, rfl, rfl⟩

/-- C9: `deleteStock`, `deleteWatchlist` and `removeStockFromWatchlist` in
`app/lib/api.ts` throw exactly when the response is not ok, and on success
return without reading the response body, so a 204 No Content reply (no
body) still returns normally. -/
theorem delete_endpoints_throw_iff_not_ok (resp : HttpResponse) :
    (succeeds (AppApi.deleteStock resp) = resp.ok
  ∧ succeeds (AppApi.deleteWatchlist resp) = resp.ok
  ∧ succeeds (AppApi.removeStockFromWatchlist resp) = resp.ok)
  ∧ (∀ body : Option Json,
      AppApi.deleteStock ⟨true, body⟩ = Except.ok ()
    ∧ AppApi.deleteWatchlist ⟨true, body⟩ = Except.ok ()
    ∧ AppApi.removeStockFromWatchlist ⟨true, body⟩ = Except.ok ()) := by
  refine ⟨⟨?_, ?_, ?_⟩, fun body => ⟨rfl, rfl, rfl⟩⟩ <;>
    simp only [AppApi.deleteStock, AppApi.deleteWatchlist, AppApi.removeStockFromWatchlist] <;>
    cases h : resp.ok <;> simp [h, succeeds]

/-- C10: `getSummary` never divides by zero — with `total_stocks` zero or
missing, `matchRate` is the literal string "0.0" and not a division; the
denominator of any actual division is positive; and `stocksWithMatches`
defaults to 0 when the results array is absent. -/
theorem getSummary_no_division_by_zero (res : SummaryInput) :
    ((res.total_stocks = none ∨ res.total_stocks = some 0) →
      (getSummary (some res)).map Summary.matchRate = some MatchRate.literalZero)
  ∧ (∀ s, getSummary (some res) = some s →
      ∀ n d, s.matchRate = MatchRate.percentOf n d → 0 < d)
  ∧ (res.results = none →
      (getSummary (some res)).map Summary.stocksWithMatches = some 0) := by
  obtain ⟨ts, rs⟩ := res
  refine ⟨?_, ?_, ?_⟩
  · rintro (h | h)
    · have h2 : ts = none := h
      subst h2
      rfl
    · have h2 : ts = some 0 := h
      subst h2
      rfl
  · intro s hs n d hrate
    have hflat : getSummary (some ⟨ts, rs⟩) = some
        { totalStocks := ts.getD 0
          stocksWithMatches :=
            (rs.map (fun rows => (rows.filter (fun r => 0 < r.total_matches)).length)).getD 0
          matchRate :=
            if 0 < ts.getD 0 then
              MatchRate.percentOf
                ((rs.map (fun rows => (rows.filter (fun r => 0 < r.total_matches)).length)).getD 0)
                (ts.getD 0)
            else MatchRate.literalZero } := rfl
    rw [hflat] at hs
    obtain rfl := Option.some_inj.mp hs
    simp only at hrate
    split at hrate
    · cases hrate
      assumption
    · cases hrate
  · intro h
    have h2 : rs = none := h
    subst h2
    rfl

/-- C10 witness: at `total_stocks = some 0` and a missing results array the
match rate is the literal "0.0" and `stocksWithMatches` is 0. -/
theorem getSummary_no_division_by_zero_witness :
    (getSummary (some ⟨some 0, none⟩)).map Summary.matchRate = some MatchRate.literalZero
  ∧ (getSummary (some ⟨some 0, none⟩)).map Summary.stocksWithMatches = some 0 :=
  ⟨(getSummary_no_division_by_zero ⟨some 0, none⟩).1 (Or.inr rfl),
   (getSummary_no_division_by_zero ⟨some 0, none⟩).2.2 rfl⟩

/-- C5: `handleUpload` refreshes the strategy list exactly when the upload
response is ok; on a rejected upload it surfaces the server's `detail`
validation message and performs no refresh, leaving the displayed registry
state unchanged. -/
theorem upload_refresh_iff_ok (resp : UploadResponse) :
    (UploadEff.refresh ∈ handleUpload resp ↔ resp.ok = true)
  ∧ (∀ d, resp.ok = false → resp.detail = some d →
      UploadEff.errorMsg d ∈ handleUpload resp
    ∧ UploadEff.refresh ∉ handleUpload resp) := by
  rcases resp with ⟨ok, detail, message⟩
  unfold handleUpload
  cases ok
  · refine ⟨by simp, fun d _ hd => ?_⟩
    have h2 : detail = some d := hd
    subst h2
    simp
  · simp

/-- C5 witness: a rejected upload with a validation detail surfaces that
detail and does not refresh; an accepted upload refreshes. -/
theorem upload_refresh_iff_ok_witness :
    UploadEff.errorMsg "Strategy must implement analyze" ∈
      handleUpload ⟨false, some "Strategy must implement analyze", none⟩
  ∧ UploadEff.refresh ∉
      handleUpload ⟨false, some "Strategy must implement analyze", none⟩
  ∧ UploadEff.refresh ∈ handleUpload ⟨true, none, some "uploaded"⟩ :=
  ⟨((upload_refresh_iff_ok ⟨false, some "Strategy must implement analyze", none⟩).2
      "Strategy must implement analyze" rfl rfl).1,
   ((upload_refresh_iff_ok ⟨false, some "Strategy must implement analyze", none⟩).2
      "Strategy must implement analyze" rfl rfl).2,
   (upload_refresh_iff_ok ⟨true, none, some "uploaded"⟩).1.mpr rfl⟩

/-- C4 counterexample: a matched outcome whose `confidence` is present but
equal to 0 renders without its confidence — the render guard is JavaScript
truthiness (`strategyResult.confidence && ...`), not presence — so the claim
that the confidence is shown whenever present fails on this row. -/
theorem strategy_cell_confidence_zero_counterexample :
    renderStrategyCell ⟨"AAA", 1, some [("7", ⟨true, some 80, some 0, none⟩)]⟩ "7"
      = Cell.matchBlock (some 80) none none
  ∧ renderStrategyCellSpec ⟨"AAA", 1, some [("7", ⟨true, some 80, some 0, none⟩)]⟩ "7"
      = Cell.matchBlock (some 80) (some 0) none
  ∧ renderStrategyCell ⟨"AAA", 1, some [("7", ⟨true, some 80, some 0, none⟩)]⟩ "7"
      ≠ renderStrategyCellSpec ⟨"AAA", 1, some [("7", ⟨true, some 80, some 0, none⟩)]⟩ "7" := by
  refine ⟨rfl, rfl, ?_⟩
  intro h
  rw [show renderStrategyCell ⟨"AAA", 1, some [("7", ⟨true, some 80, some 0, none⟩)]⟩ "7"
        = Cell.matchBlock (some 80) none none from rfl,
      show renderStrategyCellSpec ⟨"AAA", 1, some [("7", ⟨true, some 80, some 0, none⟩)]⟩ "7"
        = Cell.matchBlock (some 80) (some 0) none from rfl] at h
  simp at h

/-- C4 (amended): a missing per-strategy entry renders the "No Data" marker,
never a dropped cell; a `matched=false` outcome renders "No Match"; a
`matched=true` outcome renders a MATCH block with its score, and its
confidence is displayed whenever it is present and nonzero (JavaScript
truthiness drops a zero confidence). -/
theorem strategy_cell_render (row : DetailRow) (strategyId : String) :
    (lookupStrategy row strategyId = none →
      renderStrategyCell row strategyId = Cell.noData)
  ∧ (∀ res, lookupStrategy row strategyId = some res →
      (res.matched = true →
        renderStrategyCell row strategyId =
          Cell.matchBlock res.score (jsShownConfidence res.confidence) (jsShownReason res.reason)
      ∧ ∀ c, res.confidence = some c → c ≠ 0 → jsShownConfidence res.confidence = some c)
    ∧ (res.matched = false →
        renderStrategyCell row strategyId = Cell.noMatch)) := by
  unfold renderStrategyCell
  refine ⟨fun h => by rw [h], fun res h => ?_⟩
  rw [h]
  constructor
  · intro hm
    constructor
    · simp [hm]
    · intro c hc hcne
      unfold jsShownConfidence
      rw [hc]
      simp [hcne]
  · intro hm
    simp [hm]

/-- C4 witness: a row whose per-strategy map lacks strategy "9" renders
"No Data" there; a matched outcome with nonzero confidence renders the MATCH
block with that confidence; an unmatched outcome renders "No Match". -/
theorem strategy_cell_render_witness :
    renderStrategyCell ⟨"BBB", 1, some [("7", ⟨true, some 60, some 85, none⟩)]⟩ "9"
      = Cell.noData
  ∧ renderStrategyCell ⟨"BBB", 1, some [("7", ⟨true, some 60, some 85, none⟩)]⟩ "7"
      = Cell.matchBlock (some 60) (jsShownConfidence (some 85)) (jsShownReason none)
  ∧ renderStrategyCell ⟨"CCC", 0, some [("7", ⟨false, some 10, none, none⟩)]⟩ "7"
      = Cell.noMatch :=
  ⟨(strategy_cell_render ⟨"BBB", 1, some [("7", ⟨true, some 60, some 85, none⟩)]⟩ "9").1 rfl,
   (((strategy_cell_render ⟨"BBB", 1, some [("7", ⟨true, some 60, some 85, none⟩)]⟩ "7").2
      ⟨true, some 60, some 85, none⟩ rfl).1 rfl).1,
   ((strategy_cell_render ⟨"CCC", 0, some [("7", ⟨false, some 10, none, none⟩)]⟩ "7").2
      ⟨false, some 10, none, none⟩ rfl).2 rfl⟩

/-- C6 counterexample: the execute request is built without any abort signal
in both copies of the api module (there is no `signal:` entry in the fetch
options of `executeMultipleStrategies`), so the overall execute call is not
cancellable by the caller via request abort. -/
theorem execute_request_not_abortable_counterexample :
    (AppApi.executeMultipleStrategies 1 [2]).hasAbortSignal = false
  ∧ (RootApi.executeMultipleStrategies 1 [2]).hasAbortSignal = false :=
  ⟨rfl, rfl⟩

/-- C6 (amended): only the scan request is cancellable via request abort —
`handleScan` attaches an abort signal to its fetch and aborts any previous
in-flight controller, and an aborted scan performs no further effects (no
message is surfaced and no refresh is issued); the execute request carries no
abort signal in either copy of the api module, so the overall execute call is
not cancellable by the caller via request abort. -/
theorem scan_abortable_execute_not (hasPrev : Bool) (watchlistId : Int)
    (strategyIds : List Int) :
    scanRequest.hasAbortSignal = true
  ∧ handleScan false hasPrev ScanOutcome.aborted =
      (if hasPrev then [ScanEff.abortPrevious] else []) ++ [ScanEff.request scanRequest]
  ∧ (AppApi.executeMultipleStrategies watchlistId strategyIds).hasAbortSignal = false
  ∧ (RootApi.executeMultipleStrategies watchlistId strategyIds).hasAbortSignal = false := by
  refine ⟨rfl, ?_, rfl, rfl⟩
  unfold handleScan
  simp

/-- C2 helper: a trace made only of `postStock` effects projects back to its
symbols. -/
theorem postsOf_map_postStock (l : List String) : postsOf (l.map Eff.postStock) = l := by
  induction l with
  | nil => rfl
  | cons a t ih =>
    simp only [List.map_cons, postsOf, List.filterMap_cons] at ih ⊢
    rw [ih]

/-- C2 helper: after a run of `ensureStocksExist` whose creation requests all
succeeded, every input symbol has a stock on the server, so nothing is
missing any more. -/
theorem missingFrom_after_ensure (acc : String → Bool) (fid : String → Nat)
    (server : List Stock) (symbols : List String)
    (hacc : ∀ sym ∈ missingFrom server symbols, acc sym = true) :
    missingFrom (ensureStocksExist true acc fid server symbols).1 symbols = [] := by
  unfold ensureStocksExist
  simp only [if_pos]
  split
  · next hemp =>
    exact List.isEmpty_iff.mp hemp
  · next hemp =>
    simp only
    apply List.filter_eq_nil_iff.mpr
    intro sym hsym
    simp only [Bool.not_eq_true, Bool.not_eq_false]
    by_cases hin : server.any (fun s => s.symbol == sym) = true
    · rw [List.any_append, hin, Bool.true_or]
      rfl
    · have hmiss : sym ∈ missingFrom server symbols := by
        unfold missingFrom
        apply List.mem_filter.mpr
        refine ⟨hsym, ?_⟩
        rw [Bool.not_eq_true] at hin
        simp [hin]
      have haccsym := hacc sym hmiss
      have hmem : Stock.mk sym (fid sym) ∈
          (List.filter acc (missingFrom server symbols)).map
            (fun sym => Stock.mk sym (fid sym)) :=
        List.mem_map.mpr ⟨sym, List.mem_filter.mpr ⟨hmiss, haccsym⟩, rfl⟩
      rw [List.any_append]
      have : ((List.filter acc (missingFrom server symbols)).map
          (fun sym => Stock.mk sym (fid sym))).any (fun s => s.symbol == sym) = true :=
        List.any_eq_true.mpr ⟨Stock.mk sym (fid sym), hmem, by simp⟩
      rw [this, Bool.or_true]
      rfl

/-- C2: `ensureStocksExist` posts a stock-creation request exactly for the
input symbols absent from the fetched stock list; when every input symbol
already exists it issues no creation request; and a second call immediately
after a first call whose creation requests all succeeded performs no writes
(idempotent upsert). -/
theorem ensure_stocks_idempotent_upsert (acc acc2 : String → Bool)
    (fid fid2 : String → Nat) (server : List Stock) (symbols : List String) :
    postsOf (ensureStocksExist true acc fid server symbols).2.1 = missingFrom server symbols
  ∧ (missingFrom server symbols = [] →
      postsOf (ensureStocksExist true acc fid server symbols).2.1 = [])
  ∧ ((∀ sym ∈ missingFrom server symbols, acc sym = true) →
      postsOf (ensureStocksExist true acc2 fid2
        (ensureStocksExist true acc fid server symbols).1 symbols).2.1 = []) := by
  have hposts : ∀ (a : String → Bool) (f : String → Nat) (sv : List Stock),
      postsOf (ensureStocksExist true a f sv symbols).2.1 = missingFrom sv symbols := by
    intro a f sv
    unfold ensureStocksExist
    simp only [if_pos]
    split
    · next hemp =>
      simp only [postsOf, List.filterMap]
      exact (List.isEmpty_iff.mp hemp).symm
    · next hemp =>
      simp only [postsOf, List.filterMap_cons, List.filterMap_append]
      have h1 := postsOf_map_postStock (missingFrom sv symbols)
      simp only [postsOf] at h1
      rw [h1]
      simp [List.filterMap]
  refine ⟨hposts acc fid server, fun h => by rw [hposts acc fid server, h], fun hacc => ?_⟩
  rw [hposts acc2 fid2 (ensureStocksExist true acc fid server symbols).1]
  exact missingFrom_after_ensure acc fid server symbols hacc

/-- C2 witness: with server stocks {AAA} and symbols [AAA, BBB], only BBB is
posted; after that successful call a second call posts nothing. -/
theorem ensure_stocks_idempotent_upsert_witness :
    postsOf (ensureStocksExist true (fun _ => true) (fun _ => 5)
      [⟨"AAA", 1⟩] ["AAA", "BBB"]).2.1 = ["BBB"]
  ∧ postsOf (ensureStocksExist true (fun _ => true) (fun _ => 7)
      (ensureStocksExist true (fun _ => true) (fun _ => 5)
        [⟨"AAA", 1⟩] ["AAA", "BBB"]).1 ["AAA", "BBB"]).2.1 = [] := by
  have h := ensure_stocks_idempotent_upsert (fun _ => true) (fun _ => true)
    (fun _ => 5) (fun _ => 7) [⟨"AAA", 1⟩] ["AAA", "BBB"]
  refine ⟨?_, h.2.2 (fun sym _ => rfl)⟩
  rw [h.1]
  rfl

/-- C1 helper: a symbol found on the server contributes that stock's id to
the collected `stock_ids`. -/
theorem mem_resolveIds (stocks : List Stock) (symbols : List String) (sym : String)
    (st : Stock) (hmem : sym ∈ symbols)
    (hfind : stocks.find? (fun s => s.symbol == sym) = some st) :
    st.id ∈ resolveIds stocks symbols := by
  unfold resolveIds
  exact List.mem_filterMap.mpr ⟨sym, hmem, by rw [hfind]; rfl⟩

/-- C1 helper: a symbol not found on the server lands in `notFoundStocks`. -/
theorem mem_notFoundFrom (stocks : List Stock) (symbols : List String) (sym : String)
    (hmem : sym ∈ symbols)
    (hfind : stocks.find? (fun s => s.symbol == sym) = none) :
    sym ∈ notFoundFrom stocks symbols := by
  unfold notFoundFrom
  exact List.mem_filter.mpr ⟨hmem, by rw [hfind]; rfl⟩

/-- C1 helper: `ensureStocksExist` never issues a watchlist-creation
request. -/
theorem createRequest_not_mem_ensure (f1 : Bool) (acc : String → Bool)
    (fid : String → Nat) (server : List Stock) (symbols : List String)
    (nm ds : String) (ids : List Nat) :
    Eff.createRequest nm ds ids ∉ (ensureStocksExist f1 acc fid server symbols).2.1 := by
  unfold ensureStocksExist
  cases f1
  · simp
  · by_cases hmiss : (missingFrom server symbols).isEmpty = true <;> simp [hmiss]

/-- C1 helper: a `createRequest` effect appears in the `handleSubmitWatchlist`
trace only when the second stocks fetch succeeded and the resolved id list
was nonempty, and then its `stock_ids` are exactly the resolved ids. -/
theorem createRequest_mem_handleSubmit (f1 : Bool) (acc : String → Bool)
    (fid : String → Nat) (server : List Stock) (f2 cok : Bool)
    (cdet : Option String) (nm ds : String) (selected : List String)
    (nm2 ds2 : String) (ids : List Nat)
    (h : Eff.createRequest nm2 ds2 ids ∈
      handleSubmitWatchlist f1 acc fid server f2 cok cdet nm ds selected) :
    f2 = true
  ∧ (resolveIds (ensureStocksExist f1 acc fid server selected).1 selected).isEmpty = false
  ∧ ids = resolveIds (ensureStocksExist f1 acc fid server selected).1 selected := by
  have hens := createRequest_not_mem_ensure f1 acc fid server selected nm2 ds2 ids
  simp only [handleSubmitWatchlist] at h
  cases f2
  · simp [hens] at h
  · refine ⟨rfl, ?_⟩
    rcases hq : (resolveIds (ensureStocksExist f1 acc fid server selected).1 selected).isEmpty
      with _ | _
    · -- resolved ids nonempty: the only createRequest element carries them
      refine ⟨rfl, ?_⟩
      rw [hq] at h
      cases cok <;>
        by_cases hw :
          (notFoundFrom (ensureStocksExist f1 acc fid server selected).1 selected).isEmpty
            = true <;>
        simp [hens, hw] at h <;>
        exact h.2.2
    · -- resolved ids empty: no createRequest anywhere in the trace
      rw [hq] at h
      exfalso
      by_cases hw :
        (notFoundFrom (ensureStocksExist f1 acc fid server selected).1 selected).isEmpty
          = true <;>
      simp [hens, hw] at h

/-- C1 helper: when the second fetch succeeds, resolution finds ids and some
symbols are unresolved, the warning naming the unresolved symbols is in the
trace. -/
theorem warn_mem_handleSubmit (f1 : Bool) (acc : String → Bool)
    (fid : String → Nat) (server : List Stock) (cok : Bool)
    (cdet : Option String) (nm ds : String) (selected : List String)
    (hq : (resolveIds (ensureStocksExist f1 acc fid server selected).1 selected).isEmpty = false)
    (hw : (notFoundFrom (ensureStocksExist f1 acc fid server selected).1 selected).isEmpty = false) :
    Eff.warnNotFound (notFoundFrom (ensureStocksExist f1 acc fid server selected).1 selected) ∈
      handleSubmitWatchlist f1 acc fid server true cok cdet nm ds selected := by
  cases cok <;> simp [handleSubmitWatchlist, hq, hw]

/-- C1: when a watchlist is created from execution results,
`ensureStocksExist` runs on the selected symbols before anything else (the
trace starts with it); whenever a watchlist-creation request is issued, its
`stock_ids` are exactly the resolved ids and every selected symbol is either
resolved to a stock id included in them or named in the not-found warning in
the same trace; and when no selected symbol resolves to a stock id, no
watchlist-creation request is issued at all. -/
theorem watchlist_creation_never_drops (f1 : Bool) (acc : String → Bool)
    (fid : String → Nat) (server : List Stock) (f2 cok : Bool)
    (cdet : Option String) (nm ds : String) (selected : List String) :
    (handleSubmitWatchlist f1 acc fid server f2 cok cdet nm ds selected).head? =
      some (Eff.ensureCall selected)
  ∧ (∀ nm2 ds2 ids, Eff.createRequest nm2 ds2 ids ∈
        handleSubmitWatchlist f1 acc fid server f2 cok cdet nm ds selected →
      ids = resolveIds (ensureStocksExist f1 acc fid server selected).1 selected
      ∧ ∀ sym ∈ selected,
          (∃ st ∈ (ensureStocksExist f1 acc fid server selected).1,
            st.symbol = sym ∧ st.id ∈ ids)
          ∨ (sym ∈ notFoundFrom (ensureStocksExist f1 acc fid server selected).1 selected
            ∧ Eff.warnNotFound
                (notFoundFrom (ensureStocksExist f1 acc fid server selected).1 selected) ∈
                  handleSubmitWatchlist f1 acc fid server f2 cok cdet nm ds selected))
  ∧ (resolveIds (ensureStocksExist f1 acc fid server selected).1 selected = [] →
      ∀ nm2 ds2 ids, Eff.createRequest nm2 ds2 ids ∉
        handleSubmitWatchlist f1 acc fid server f2 cok cdet nm ds selected) := by
  refine ⟨?_, ?_, ?_⟩
  · simp only [handleSubmitWatchlist]
    cases f2
    · rfl
    · simp only [if_true]
      split
      · rfl
      · rfl
  · intro nm2 ds2 ids h
    obtain ⟨hf2, hq, hids⟩ :=
      createRequest_mem_handleSubmit f1 acc fid server f2 cok cdet nm ds selected nm2 ds2 ids h
    subst hf2
    refine ⟨hids, fun sym hsym => ?_⟩
    rcases hfind : (ensureStocksExist f1 acc fid server selected).1.find?
        (fun s => s.symbol == sym) with _ | st
    · right
      have hnf := mem_notFoundFrom _ selected sym hsym hfind
      refine ⟨hnf, ?_⟩
      have hw : (notFoundFrom (ensureStocksExist f1 acc fid server selected).1 selected).isEmpty
          = false := by
        rcases hiw : (notFoundFrom (ensureStocksExist f1 acc fid server selected).1
            selected).isEmpty with _ | _
        · rfl
        · rw [List.isEmpty_iff.mp hiw] at hnf
          cases hnf
      exact warn_mem_handleSubmit f1 acc fid server cok cdet nm ds selected hq hw
    · left
      refine ⟨st, List.mem_of_find?_eq_some hfind, ?_, ?_⟩
      · have := List.find?_some hfind
        exact eq_of_beq this
      · rw [hids]
        exact mem_resolveIds _ selected sym st hsym hfind
  · intro hz nm2 ds2 ids h
    obtain ⟨_, hq, _⟩ :=
      createRequest_mem_handleSubmit f1 acc fid server f2 cok cdet nm ds selected nm2 ds2 ids h
    rw [hz] at hq
    cases hq

/-- C1 witness: server knows AAA (id 1), every stock POST is rejected, and
the user selected AAA and BBB: the trace starts with the
`ensureStocksExist` call, and the creation request that is issued carries
exactly the resolved id 1. -/
theorem watchlist_creation_never_drops_witness :
    (handleSubmitWatchlist true (fun _ => false) (fun _ => 9)
        [⟨"AAA", 1⟩] true true none "W" "D" ["AAA", "BBB"]).head? =
      some (Eff.ensureCall ["AAA", "BBB"])
  ∧ [1] = resolveIds (ensureStocksExist true (fun _ => false) (fun _ => 9)
        [⟨"AAA", 1⟩] ["AAA", "BBB"]).1 ["AAA", "BBB"] :=
  ⟨(watchlist_creation_never_drops true (fun _ => false) (fun _ => 9)
      [⟨"AAA", 1⟩] true true none "W" "D" ["AAA", "BBB"]).1,
   ((watchlist_creation_never_drops true (fun _ => false) (fun _ => 9)
      [⟨"AAA", 1⟩] true true none "W" "D" ["AAA", "BBB"]).2.1 "W" "D" [1] (by decide)).1⟩

/-- C8 helper: toggling can only keep previously selected symbols or add the
toggled symbol. -/
theorem mem_toggleSelection (selected : List String) (sym x : String)
    (hx : x ∈ toggleSelection selected sym) : x ∈ selected ∨ x = sym := by
  unfold toggleSelection at hx
  split at hx
  · exact Or.inl (List.mem_filter.mp hx).1
  · rcases List.mem_append.mp hx with h | h
    · exact Or.inl h
    · exact Or.inr (List.mem_singleton.mp h)

/-- C8 helper: membership in the matched-symbols list is exactly having a
result row with positive `total_matches`. -/
theorem mem_matchedSymbols (rd : ResultsData) (sym : String) :
    sym ∈ matchedSymbols rd ↔ ∃ r ∈ rd.results, r.symbol = sym ∧ 0 < r.total_matches := by
  unfold matchedSymbols
  simp only [List.mem_map, List.mem_filter, decide_eq_true_eq]
  constructor
  · rintro ⟨r, ⟨hr, hm⟩, hsym⟩
    exact ⟨r, hr, hsym, hm⟩
  · rintro ⟨r, hr, hsym, hm⟩
    exact ⟨r, ⟨hr, hm⟩, hsym⟩

/-- C8: in every reachable state of the Strategies component,
`selectedStocks` contains only symbols whose result row has positive
`total_matches`; moreover the per-row checkbox is disabled exactly when
`total_matches` is 0, and the selection list used by `selectAllMatched` and
the auto-select path is exactly the symbols with positive `total_matches`. -/
theorem selected_stocks_matched_invariant :
    (∀ s, Reachable s → SelInv s)
  ∧ (∀ r : ResultRow, checkboxDisabled r = true ↔ r.total_matches = 0)
  ∧ (∀ (rd : ResultsData) (sym : String),
      sym ∈ matchedSymbols rd ↔ ∃ r ∈ rd.results, r.symbol = sym ∧ 0 < r.total_matches) := by
  refine ⟨?_, ?_, mem_matchedSymbols⟩
  · intro s hs
    induction hs with
    | init =>
      intro sym h
      cases h
    | step s t hs hstep ih =>
      cases hstep with
      | execute rd =>
        intro sym h
        cases h
      | toggleChecked rd sym hres hrow =>
        intro x hx
        rcases mem_toggleSelection _ _ _ hx with h | h
        · exact ih x h
        · subst h
          obtain ⟨r, hr, hsym, hen⟩ := hrow
          refine ⟨rd, hres, r, hr, hsym, ?_⟩
          unfold checkboxDisabled at hen
          exact Nat.pos_of_ne_zero (by simpa using hen)
      | toggleMatchedCard rd sym hres hrow =>
        intro x hx
        rcases mem_toggleSelection _ _ _ hx with h | h
        · exact ih x h
        · subst h
          obtain ⟨r, hr, hsym, hm⟩ := hrow
          exact ⟨rd, hres, r, hr, hsym, hm⟩
      | toggleTagClose sym hsel =>
        intro x hx
        rcases mem_toggleSelection _ _ _ hx with h | h
        · exact ih x h
        · subst h
          exact ih x hsel
      | selectAll rd hres =>
        intro x hx
        obtain ⟨r, hr, hsym, hm⟩ := (mem_matchedSymbols rd x).mp hx
        exact ⟨rd, hres, r, hr, hsym, hm⟩
      | createAutoSelect rd hres hempty hne =>
        intro x hx
        obtain ⟨r, hr, hsym, hm⟩ := (mem_matchedSymbols rd x).mp hx
        exact ⟨rd, hres, r, hr, hsym, hm⟩
      | clearSel =>
        intro sym h
        cases h
  · intro r
    unfold checkboxDisabled
    simp

/-- C8 witness: after an execution whose results mark AAA matched (2) and
BBB unmatched (0) and a "Select All Matched" click, the reachable state has
exactly AAA selected and satisfies the selection invariant. -/
theorem selected_stocks_matched_invariant_witness :
    SelInv ⟨some ⟨[⟨"AAA", 2⟩, ⟨"BBB", 0⟩]⟩, ["AAA"]⟩ := by
  have h1 : Reachable ⟨some ⟨[⟨"AAA", 2⟩, ⟨"BBB", 0⟩]⟩, []⟩ :=
    Reachable.step _ _ Reachable.init (Step.execute _ (some ⟨[⟨"AAA", 2⟩, ⟨"BBB", 0⟩]⟩))
  have h2 : Reachable ⟨some ⟨[⟨"AAA", 2⟩, ⟨"BBB", 0⟩]⟩, ["AAA"]⟩ :=
    Reachable.step _ _ h1 (Step.selectAll _ ⟨[⟨"AAA", 2⟩, ⟨"BBB", 0⟩]⟩ rfl)
  exact selected_stocks_matched_invariant.1 _ h2

/-- C7 helper: one step of `lookupId` on a nonempty registry. -/
theorem lookupId_cons (a : StratMeta) (t : List StratMeta) (i : String) :
    lookupId (a :: t) i = if a.scriptId == i then some a else lookupId t i := by
  unfold lookupId
  simp only [List.find?_cons]
  cases h : (a.scriptId == i)
  · simp
  · simp

/-- C7 helper: the empty registry finds nothing. -/
theorem lookupId_nil (i : String) : lookupId [] i = none := rfl

/-- C7 helper: one step of `upsertMeta` on a nonempty registry. -/
theorem upsertMeta_cons (a : StratMeta) (t : List StratMeta) (m : StratMeta) :
    upsertMeta (a :: t) m = (if a.scriptId == m.scriptId then m else a) :: upsertMeta t m :=
  rfl

/-- C7 helper: the ids of a candidate list headed by a loadable candidate. -/
theorem okIds_cons_ok (m : StratMeta) (cs : List (Except String StratMeta)) :
    okIds (Except.ok m :: cs) = m.scriptId :: okIds cs := rfl

/-- C7 helper: a failing candidate contributes no id. -/
theorem okIds_cons_error (e : String) (cs : List (Except String StratMeta)) :
    okIds (Except.error e :: cs) = okIds cs := rfl

/-- C7 helper: appending a strategy with an unknown id makes it findable. -/
theorem lookupId_append_self (reg : List StratMeta) (m : StratMeta)
    (h : lookupId reg m.scriptId = none) :
    lookupId (reg ++ [m]) m.scriptId = some m := by
  induction reg with
  | nil =>
    rw [List.nil_append, lookupId_cons]
    simp
  | cons a t ih =>
    rw [lookupId_cons] at h
    rw [List.cons_append, lookupId_cons]
    by_cases ha : (a.scriptId == m.scriptId) = true
    · rw [if_pos ha] at h
      cases h
    · rw [if_neg ha] at h
      rw [if_neg ha]
      exact ih h

/-- C7 helper: appending a strategy does not affect lookups of other ids. -/
theorem lookupId_append_ne (reg : List StratMeta) (m : StratMeta) (i : String)
    (h : i ≠ m.scriptId) :
    lookupId (reg ++ [m]) i = lookupId reg i := by
  induction reg with
  | nil =>
    have hm : (m.scriptId == i) = false := beq_eq_false_iff_ne.mpr (Ne.symm h)
    rw [List.nil_append, lookupId_cons, hm]
    simp [lookupId_nil]
  | cons a t ih =>
    rw [List.cons_append, lookupId_cons, lookupId_cons]
    by_cases ha : (a.scriptId == i) = true
    · rw [if_pos ha, if_pos ha]
    · rw [if_neg ha, if_neg ha]
      exact ih

/-- C7 helper: replacing the entry keyed `m.scriptId` makes `m` findable. -/
theorem lookupId_upsert_self (reg : List StratMeta) (m old : StratMeta)
    (h : lookupId reg m.scriptId = some old) :
    lookupId (upsertMeta reg m) m.scriptId = some m := by
  induction reg with
  | nil => exact Option.noConfusion h
  | cons a t ih =>
    rw [lookupId_cons] at h
    rw [upsertMeta_cons]
    by_cases ha : (a.scriptId == m.scriptId) = true
    · rw [if_pos ha, lookupId_cons]
      simp
    · rw [if_neg ha] at h
      rw [if_neg ha, lookupId_cons, if_neg ha]
      exact ih h

/-- C7 helper: the in-place replacement does not affect lookups of other
ids. -/
theorem lookupId_upsert_ne (reg : List StratMeta) (m : StratMeta) (i : String)
    (h : i ≠ m.scriptId) :
    lookupId (upsertMeta reg m) i = lookupId reg i := by
  induction reg with
  | nil => rfl
  | cons a t ih =>
    rw [upsertMeta_cons]
    by_cases ha : (a.scriptId == m.scriptId) = true
    · rw [if_pos ha]
      have haeq : a.scriptId = m.scriptId := eq_of_beq ha
      have hmi : (m.scriptId == i) = false := beq_eq_false_iff_ne.mpr (Ne.symm h)
      have hai : (a.scriptId == i) = false := by
        rw [haeq]
        exact hmi
      rw [lookupId_cons, lookupId_cons, hmi, hai]
      simp only [Bool.false_eq_true, if_false]
      exact ih
    · rw [if_neg ha, lookupId_cons, lookupId_cons]
      by_cases hai : (a.scriptId == i) = true
      · rw [if_pos hai, if_pos hai]
      · rw [if_neg hai, if_neg hai]
        exact ih

/-- C7 helper: scanning candidates none of which has id `i` leaves the
registry entry for `i` untouched. -/
theorem lookupId_scan_untouched (cs : List (Except String StratMeta))
    (reg : List StratMeta) (i : String) (h : i ∉ okIds cs) :
    lookupId (scanRegistry reg cs).1 i = lookupId reg i := by
  induction cs generalizing reg with
  | nil => rfl
  | cons c cs ih =>
    cases c with
    | error e =>
      have htail : i ∉ okIds cs := by
        rw [okIds_cons_error] at h
        exact h
      simp only [scanRegistry]
      exact ih reg htail
    | ok m =>
      rw [okIds_cons_ok] at h
      have hne : i ≠ m.scriptId := by
        intro hcontra
        exact h (by rw [hcontra]; exact List.mem_cons_self _ _)
      have htail : i ∉ okIds cs := fun hcontra => h (List.mem_cons_of_mem _ hcontra)
      simp only [scanRegistry]
      rcases hl : lookupId reg m.scriptId with _ | old
      · simp only
        rw [ih (reg ++ [m]) htail]
        exact lookupId_append_ne reg m i hne
      · simp only
        by_cases he : old = m
        · rw [if_pos he]
          exact ih reg htail
        · rw [if_neg he]
          simp only
          rw [ih (upsertMeta reg m) htail]
          exact lookupId_upsert_ne reg m i hne

/-- C7 helper: after one scan, every successfully loading candidate has its
metadata stored in the registry under its script id (candidate ids being
pairwise distinct, each derived from its source file name). -/
theorem lookupId_scan_ok (cs : List (Except String StratMeta))
    (reg : List StratMeta) (m : StratMeta) (hnd : (okIds cs).Nodup)
    (hm : Except.ok m ∈ cs) :
    lookupId (scanRegistry reg cs).1 m.scriptId = some m := by
  induction cs generalizing reg with
  | nil => cases hm
  | cons c cs ih =>
    cases c with
    | error e =>
      have hmt : Except.ok m ∈ cs := by
        rcases List.mem_cons.mp hm with h | h
        · cases h
        · exact h
      have hndt : (okIds cs).Nodup := by
        rw [okIds_cons_error] at hnd
        exact hnd
      simp only [scanRegistry]
      exact ih reg hndt hmt
    | ok m0 =>
      rw [okIds_cons_ok] at hnd
      have hndt : (okIds cs).Nodup := (List.nodup_cons.mp hnd).2
      have hm0notin : m0.scriptId ∉ okIds cs := (List.nodup_cons.mp hnd).1
      rcases List.mem_cons.mp hm with hhead | htail
      · -- the candidate at the head: its metadata lands in the registry
        obtain rfl : m = m0 := Except.ok.inj hhead
        simp only [scanRegistry]
        rcases hl : lookupId reg m.scriptId with _ | old
        · simp only
          rw [lookupId_scan_untouched cs (reg ++ [m]) m.scriptId hm0notin]
          exact lookupId_append_self reg m hl
        · simp only
          by_cases he : old = m
          · rw [if_pos he]
            rw [lookupId_scan_untouched cs reg m.scriptId hm0notin]
            rw [hl, he]
          · rw [if_neg he]
            simp only
            rw [lookupId_scan_untouched cs (upsertMeta reg m) m.scriptId hm0notin]
            exact lookupId_upsert_self reg m old hl
      · simp only [scanRegistry]
        rcases hl : lookupId reg m0.scriptId with _ | old
        · simp only
          exact ih (reg ++ [m0]) hndt htail
        · simp only
          by_cases he : old = m0
          · rw [if_pos he]
            exact ih reg hndt htail
          · rw [if_neg he]
            simp only
            exact ih (upsertMeta reg m0) hndt htail

/-- C7 helper: scanning a candidate list whose metadata is already stored
verbatim reports nothing added and nothing updated and leaves the registry
unchanged. -/
theorem scan_fixed_point (cs : List (Except String StratMeta))
    (reg : List StratMeta)
    (h : ∀ m, Except.ok m ∈ cs → lookupId reg m.scriptId = some m) :
    (scanRegistry reg cs).1 = reg
  ∧ (scanRegistry reg cs).2.added = []
  ∧ (scanRegistry reg cs).2.updated = [] := by
  induction cs with
  | nil => exact ⟨rfl, rfl, rfl⟩
  | cons c cs ih =>
    cases c with
    | error e =>
      have ihr := ih (fun m hm => h m (List.mem_cons_of_mem _ hm))
      simp only [scanRegistry]
      exact ⟨ihr.1, ihr.2.1, ihr.2.2⟩
    | ok m =>
      have hl := h m (List.mem_cons_self _ _)
      have ihr := ih (fun m2 hm2 => h m2 (List.mem_cons_of_mem _ hm2))
      simp only [scanRegistry]
      rw [hl]
      simp only [if_true]
      exact ⟨ihr.1, ihr.2.1, ihr.2.2⟩

/-- C7: scanning the same source location twice with no filesystem changes in
between yields `added = []` and `updated = []` on the second scan (scans are
idempotent), provided the candidates carry pairwise-distinct script ids (each
id is derived from its source file name). -/
theorem scan_idempotent (reg : List StratMeta) (cs : List (Except String StratMeta))
    (hnd : (okIds cs).Nodup) :
    (scanRegistry (scanRegistry reg cs).1 cs).2.added = []
  ∧ (scanRegistry (scanRegistry reg cs).1 cs).2.updated = [] := by
  have hfix : ∀ m, Except.ok m ∈ cs →
      lookupId (scanRegistry reg cs).1 m.scriptId = some m :=
    fun m hm => lookupId_scan_ok cs reg m hnd hm
  exact ⟨(scan_fixed_point cs _ hfix).2.1, (scan_fixed_point cs _ hfix).2.2⟩

/-- C7 witness: one loadable candidate and one failing candidate; the second
scan of the unchanged candidate list adds and updates nothing. -/
theorem scan_idempotent_witness :
    (scanRegistry
      (scanRegistry [] [Except.ok ⟨"s1", "Momentum", "d"⟩, Except.error "bad candidate"]).1
      [Except.ok ⟨"s1", "Momentum", "d"⟩, Except.error "bad candidate"]).2.added = []
  ∧ (scanRegistry
      (scanRegistry [] [Except.ok ⟨"s1", "Momentum", "d"⟩, Except.error "bad candidate"]).1
      [Except.ok ⟨"s1", "Momentum", "d"⟩, Except.error "bad candidate"]).2.updated = [] :=
  scan_idempotent [] [Except.ok ⟨"s1", "Momentum", "d"⟩, Except.error "bad candidate"]
    (by decide)

end SwingTrading
